/-
  Verification of the streaming protocol-normalization engine of the
  `aisdk-rs` repository against its natural-language specification.

  The development shallowly embeds the relevant Rust code:
  * a JSON value type and parser modelling `serde_json` values and
    `serde_json::from_str` on the JSON grammar;
  * the Anthropic-family stream-event vocabulary and the ClaudeCode
    `stream_text` accumulator fold (src/providers/claudecode/mod.rs);
  * the establishment retry loop shared by the ClaudeCode and Codex
    providers;
  * the Codex wire decoders (`parse_stream_sse` and the frame loop inside
    `send_and_stream`, src/providers/codex/client.rs) and the Codex chunk
    normalizer (src/providers/codex/language_model.rs);
  * the Google wire decoder (src/providers/google/client/mod.rs);
  * the Vercel AI-SDK UI chunk filter (src/integrations/vercel_aisdk_ui.rs).

  Rust `HashMap` state is modelled as an insertion-ordered association
  list; the unspecified iteration order of `HashMap::values()` is exposed
  as an explicit reordering parameter of the fold.
-/
import Mathlib

namespace Aisdk

/-! ## JSON values (model of `serde_json::Value`) -/

/-- A JSON value, modelling `serde_json::Value`.  A number literal is
kept exactly as the integer `mantissa` scaled by `10 ^ exp10` (an
integer `n` is `num n 0`); the claims under study never depend on float
rounding. -/
inductive Json where
  | null
  | bool (b : Bool)
  | num (mantissa : Int) (exp10 : Int)
  | str (s : String)
  | arr (elems : List Json)
  | obj (fields : List (String × Json))
  deriving Repr

/-! ### JSON parser (model of `serde_json::from_str` to a `Value`)

A recursive-descent parser over the JSON grammar (RFC 8259): the four
JSON whitespace characters, `null`/`true`/`false`, numbers without
leading zeros, strings with the standard escapes, arrays and objects.
A fuel argument makes the mutual recursion structural; the top-level
entry point supplies ample fuel for its input. -/

/-- JSON insignificant whitespace: space, tab, line feed, carriage return. -/
def jsonWs (c : Char) : Bool :=
  c = ' ' || c = '\t' || c = '\n' || c = '\r'

/-- Drop leading JSON whitespace. -/
def skipWs : List Char → List Char
  | c :: cs => if jsonWs c then skipWs cs else c :: cs
  | [] => []

/-- Decimal digit list to a natural number. -/
def digitsToNat (ds : List Char) : Nat :=
  ds.foldl (fun acc c => acc * 10 + (c.toNat - '0'.toNat)) 0

/-- Hexadecimal digit value, if any. -/
def hexVal (c : Char) : Option Nat :=
  if '0' ≤ c ∧ c ≤ '9' then some (c.toNat - '0'.toNat)
  else if 'a' ≤ c ∧ c ≤ 'f' then some (c.toNat - 'a'.toNat + 10)
  else if 'A' ≤ c ∧ c ≤ 'F' then some (c.toNat - 'A'.toNat + 10)
  else none

/-- Parse a JSON number starting at `cs` (first char already known to be
`-` or a digit).  Returns the value and the remaining input. -/
def parseNumber (cs : List Char) : Option (Json × List Char) :=
  let (neg, cs₁) := match cs with
    | '-' :: r => (true, r)
    | _ => (false, cs)
  match cs₁ with
  | c :: _ =>
    if ¬ c.isDigit then none else
    -- integer part: a single 0, or a nonzero digit followed by digits
    let intDigits := cs₁.takeWhile Char.isDigit
    let rest₁ := cs₁.dropWhile Char.isDigit
    if intDigits.length > 1 ∧ intDigits.head? = some '0' then none else
    let intVal : Nat := digitsToNat intDigits
    -- fraction part
    let (fracDigits, rest₂) : List Char × List Char :=
      match rest₁ with
      | '.' :: r =>
        let fds := r.takeWhile Char.isDigit
        if fds.isEmpty then ([], '.' :: r)  -- flagged invalid below
        else (fds, r.dropWhile Char.isDigit)
      | r => ([], r)
    match rest₂ with
    | '.' :: _ => none  -- dot without digits
    | _ =>
      -- exponent part
      let expPart : Option (Int × List Char) :=
        match rest₂ with
        | e :: r =>
          if e = 'e' ∨ e = 'E' then
            let (esign, r₁) := match r with
              | '+' :: rr => ((1 : Int), rr)
              | '-' :: rr => ((-1 : Int), rr)
              | rr => ((1 : Int), rr)
            let eds := r₁.takeWhile Char.isDigit
            if eds.isEmpty then none
            else some (esign * (digitsToNat eds : Int), r₁.dropWhile Char.isDigit)
          else some ((0 : Int), rest₂)
        | [] => some ((0 : Int), [])
      match expPart with
      | none => none
      | some (e, rest₃) =>
        let mantNat : Nat := intVal * 10 ^ fracDigits.length + digitsToNat fracDigits
        let mant : Int := if neg then -(mantNat : Int) else (mantNat : Int)
        some (.num mant (e - fracDigits.length), rest₃)
  | [] => none

/-- Parse the body of a JSON string after the opening quote, handling the
standard escapes; raw control characters are rejected. -/
def parseStringBody : Nat → List Char → Option (String × List Char)
  | 0, _ => none
  | fuel + 1, cs =>
    match cs with
    | '"' :: rest => some ("", rest)
    | '\\' :: e :: rest =>
      let simple : Option Char :=
        if e = '"' then some '"'
        else if e = '\\' then some '\\'
        else if e = '/' then some '/'
        else if e = 'b' then some (Char.ofNat 8)
        else if e = 'f' then some (Char.ofNat 12)
        else if e = 'n' then some '\n'
        else if e = 'r' then some '\r'
        else if e = 't' then some '\t'
        else none
      (match simple, e, rest with
       | some c, _, _ =>
         (parseStringBody fuel rest).map (fun p => (String.mk (c :: p.1.data), p.2))
       | none, 'u', h₁ :: h₂ :: h₃ :: h₄ :: rest' =>
         match hexVal h₁, hexVal h₂, hexVal h₃, hexVal h₄ with
         | some a, some b, some c, some d =>
           let code := ((a * 16 + b) * 16 + c) * 16 + d
           (parseStringBody fuel rest').map
             (fun p => (String.mk (Char.ofNat code :: p.1.data), p.2))
         | _, _, _, _ => none
       | _, _, _ => none)
    | c :: rest =>
      if c.toNat < 32 then none
      else (parseStringBody fuel rest).map (fun p => (String.mk (c :: p.1.data), p.2))
    | [] => none

mutual

/-- Parse one JSON value (after skipping leading whitespace). -/
def parseValue : Nat → List Char → Option (Json × List Char)
  | 0, _ => none
  | fuel + 1, cs =>
    match skipWs cs with
    | 'n' :: 'u' :: 'l' :: 'l' :: rest => some (.null, rest)
    | 't' :: 'r' :: 'u' :: 'e' :: rest => some (.bool true, rest)
    | 'f' :: 'a' :: 'l' :: 's' :: 'e' :: rest => some (.bool false, rest)
    | '"' :: rest => (parseStringBody (fuel + 1) rest).map (fun p => (.str p.1, p.2))
    | '[' :: rest => parseArrayBody fuel rest
    | '{' :: rest => parseObjectBody fuel rest
    | c :: rest =>
      if c = '-' ∨ c.isDigit then parseNumber (c :: rest) else none
    | [] => none

/-- Parse an array body after the opening bracket. -/
def parseArrayBody : Nat → List Char → Option (Json × List Char)
  | 0, _ => none
  | fuel + 1, cs =>
    match skipWs cs with
    | ']' :: rest => some (.arr [], rest)
    | _ => (parseElems fuel cs).map (fun p => (.arr p.1, p.2))

/-- Parse comma-separated array elements up to the closing bracket. -/
def parseElems : Nat → List Char → Option (List Json × List Char)
  | 0, _ => none
  | fuel + 1, cs =>
    match parseValue fuel cs with
    | none => none
    | some (v, rest) =>
      match skipWs rest with
      | ',' :: rest' => (parseElems fuel rest').map (fun p => (v :: p.1, p.2))
      | ']' :: rest' => some ([v], rest')
      | _ => none

/-- Parse an object body after the opening brace. -/
def parseObjectBody : Nat → List Char → Option (Json × List Char)
  | 0, _ => none
  | fuel + 1, cs =>
    match skipWs cs with
    | '}' :: rest => some (.obj [], rest)
    | _ => (parseMembers fuel cs).map (fun p => (.obj p.1, p.2))

/-- Parse comma-separated `"key": value` members up to the closing brace. -/
def parseMembers : Nat → List Char → Option (List (String × Json) × List Char)
  | 0, _ => none
  | fuel + 1, cs =>
    match skipWs cs with
    | '"' :: rest =>
      match parseStringBody (fuel + 1) rest with
      | none => none
      | some (key, rest₁) =>
        match skipWs rest₁ with
        | ':' :: rest₂ =>
          match parseValue fuel rest₂ with
          | none => none
          | some (v, rest₃) =>
            match skipWs rest₃ with
            | ',' :: rest₄ => (parseMembers fuel rest₄).map (fun p => ((key, v) :: p.1, p.2))
            | '}' :: rest₄ => some ([(key, v)], rest₄)
            | _ => none
        | _ => none
    | _ => none

end

/-- Model of `serde_json::from_str::<serde_json::Value>`: parse one JSON
value and require only whitespace to follow. -/
def parseJson (s : String) : Option Json :=
  match parseValue (4 * s.length + 8) s.data with
  | some (v, rest) => if (skipWs rest).isEmpty then some v else none
  | none => none

/-- Rust `str::trim().is_empty()`: every character is whitespace. -/
def isBlank (s : String) : Bool :=
  s.data.all Char.isWhitespace

/-- Model of Rust `str::trim`: drop leading and trailing whitespace. -/
def strTrim (s : String) : String :=
  String.mk (((s.data.dropWhile Char.isWhitespace).reverse.dropWhile
    Char.isWhitespace).reverse)

/-! ## Core shared types

The `core` module (`crate::error`, `crate::core::language_model`) is not
among the provided sources; the variants below are reconstructed from
their uses in the provider code under `src/`. -/

/-- The crate error type, with the variants used by the providers:
`Error::ApiError { status_code, details }` (HTTP status modelled as a
`Nat`), `Error::Other`, `Error::MissingField`, `Error::InvalidInput`. -/
inductive Error where
  | apiError (status_code : Option Nat) (details : String)
  | other (msg : String)
  | missingField (name : String)
  | invalidInput (msg : String)
  deriving Repr, DecidableEq

/-- Token usage record (`Usage` / `AnthropicMessageDeltaUsage`), with the
token counts normalized away from vendor field names. -/
structure Usage where
  input_tokens : Nat := 0
  output_tokens : Nat := 0
  deriving Repr, DecidableEq

/-- `LanguageModelResponseContentType`: one finalized content item.
`Reasoning` carries the optional Anthropic thinking signature that the
code stores in the item's extensions; `ToolCall` carries the parsed input
object together with the tool id and name (`ToolCallInfo`/`ToolDetails`). -/
inductive ContentType where
  | Text (text : String)
  | Reasoning (content : String) (signature : Option String)
  | ToolCall (input : Json) (id : String) (name : String)
  | NotSupported (msg : String)
  deriving Repr

/-- `AssistantMessage`: a finalized content item plus optional usage. -/
structure AssistantMessage where
  content : ContentType
  usage : Option Usage
  deriving Repr

/-- `LanguageModelStreamChunkType`: the delta vocabulary of the
normalized stream. -/
inductive ChunkType where
  | Start
  | Text (delta : String)
  | Reasoning (delta : String)
  | ToolCall (fragment : String)
  | Failed (reason : String)
  | Incomplete (reason : String)
  | NotSupported (raw : String)
  | End (info : String)
  deriving Repr

/-- `LanguageModelStreamChunk`: one normalized chunk — a delta or a
finalized `Done` message. -/
inductive Chunk where
  | Delta (t : ChunkType)
  | Done (msg : AssistantMessage)
  deriving Repr

/-! ## Anthropic-family stream events

The `providers/anthropic` module is not among the provided sources; the
variant sets below are reconstructed from the exhaustive matches over
them in `src/providers/claudecode/mod.rs`. -/

/-- `AnthropicContentBlock`. -/
inductive AnthropicContentBlock where
  | Text (text : String)
  | Thinking (thinking : String) (signature : String)
  | RedactedThinking (data : String)
  | ToolUse (id : String) (name : String) (input : Json)
  deriving Repr

/-- `AnthropicDelta`: the payload of a `content_block_delta` event.
(The Rust field of `ToolUseDelta` holds the streamed fragment of the
tool-call input JSON.) -/
inductive AnthropicDelta where
  | TextDelta (text : String)
  | ThinkingDelta (thinking : String)
  | SignatureDelta (signature : String)
  | ToolUseDelta (fragmentJson : String)
  deriving Repr

/-- `AnthropicStreamEvent`. -/
inductive AnthropicStreamEvent where
  | MessageStart
  | ContentBlockStart (index : Nat) (content_block : AnthropicContentBlock)
  | ContentBlockDelta (index : Nat) (delta : AnthropicDelta)
  | ContentBlockStop (index : Nat)
  | MessageDelta (usage : Usage)
  | MessageStop
  | Error (type_ : String) (message : String)
  | NotSupported (txt : String)
  deriving Repr

/-! ## ClaudeCode stream accumulator
(`stream_text` in src/providers/claudecode/mod.rs, lines 292–439) -/

/-- `AccumulatedBlock`: the per-index accumulator variants. -/
inductive AccumulatedBlock where
  | Text (text : String)
  | Thinking (thinking : String) (signature : Option String)
  | RedactedThinking (data : String)
  | ToolUse (id : String) (name : String) (accumulated_json : String)
  deriving Repr

/-- The block map of `StreamState`.  The Rust code uses
`HashMap<usize, AccumulatedBlock>`; it is modelled as an association list
kept in insertion order, with in-place replacement on an existing key. -/
abbrev BlockMap := List (Nat × AccumulatedBlock)

/-- `HashMap::insert`: replace the value at an existing key in place,
otherwise append the new entry. -/
def insertBlock : BlockMap → Nat → AccumulatedBlock → BlockMap
  | [], i, b => [(i, b)]
  | (j, c) :: rest, i, b =>
    if j = i then (i, b) :: rest else (j, c) :: insertBlock rest i b

/-- `HashMap::get_mut` (lookup part). -/
def lookupBlock : BlockMap → Nat → Option AccumulatedBlock
  | [], _ => none
  | (j, c) :: rest, i => if j = i then some c else lookupBlock rest i

/-- `HashMap::get_mut` (in-place mutation part): replace the value at key
`i` (no-op when the key is absent). -/
def updateBlock : BlockMap → Nat → AccumulatedBlock → BlockMap
  | [], _, _ => []
  | (j, c) :: rest, i, b =>
    if j = i then (j, b) :: rest else (j, c) :: updateBlock rest i b

/-- `StreamState`: the live accumulator for one in-flight stream. -/
structure StreamState where
  content_blocks : BlockMap := []
  usage : Option Usage := none
  deriving Repr

/-- The `unsupported` helper closure of `stream_text`: a `NotSupported`
delta carrying `"AnthropicStreamEvent::{event}"`. -/
def nsChunk (event : String) : Chunk :=
  .Delta (.NotSupported ("AnthropicStreamEvent::" ++ event))

/-- The `ContentBlockDelta` match over `(block, delta)` pairs: the four
matching arms mutate the block and emit a delta chunk; every other pair
falls to the `_` arm, which leaves the block unchanged and emits
`NotSupported("AnthropicStreamEvent::ContentBlockDelta")`. -/
def applyDelta : AccumulatedBlock → AnthropicDelta → AccumulatedBlock × List Chunk
  | .Text text, .TextDelta dt =>
    (.Text (text ++ dt), [.Delta (.Text dt)])
  | .Thinking thinking sig, .ThinkingDelta dt =>
    (.Thinking (thinking ++ dt) sig, [.Delta (.Text dt)])
  | .Thinking thinking _, .SignatureDelta ds =>
    (.Thinking thinking (some ds), [nsChunk "SignatureDelta"])
  | .ToolUse id name acc, .ToolUseDelta pj =>
    (.ToolUse id name (acc ++ pj), [.Delta (.ToolCall pj)])
  | b, _ => (b, [nsChunk "ContentBlockDelta"])

/-- `MessageStop` finalization of one accumulated block into one content
item (the body of the `for block in state.content_blocks.values()` loop). -/
def finalizeBlock : AccumulatedBlock → ContentType
  | .Text text => .Text text
  | .Thinking thinking signature => .Reasoning thinking signature
  | .RedactedThinking data => .Reasoning data none
  | .ToolUse id name accumulated_json =>
    let json_str := if isBlank accumulated_json then "\x7b\x7d" else accumulated_json
    match parseJson json_str with
    | some input => .ToolCall input id name
    | none => .NotSupported ("Invalid tool json: " ++ accumulated_json)

/-- `MessageStop` finalization of a sequence of accumulated blocks: one
`Done` chunk per block, each carrying the stream's usage record. -/
def finalizeAll (entries : BlockMap) (usage : Option Usage) : List Chunk :=
  entries.map (fun e => .Done ⟨finalizeBlock e.2, usage⟩)

/-- The outcome of one fold step: a list of emitted chunks, or abnormal
termination of the stream task (the `unreachable!` macro invocation in
the `ContentBlockDelta` arm). -/
inductive StepOut where
  | chunks (cs : List Chunk)
  | panicOut (msg : String)
  deriving Repr

/-- One step of the ClaudeCode `scan` fold over decoded
`AnthropicStreamEvent`s.  `ord` models the unspecified iteration order of
`HashMap::values()` used at `MessageStop`: it rearranges the accumulated
entries before finalization (the honest instantiations are permutations). -/
def claudeStep (ord : BlockMap → BlockMap) (s : StreamState) :
    AnthropicStreamEvent → StepOut × StreamState
  | .MessageStart => (.chunks [.Delta .Start], s)
  | .ContentBlockStart index content_block =>
    match content_block with
    | .Text _ =>
      (.chunks [nsChunk "ContentBlockStart::Text"],
       { s with content_blocks := insertBlock s.content_blocks index (.Text "") })
    | .Thinking _ _ =>
      (.chunks [nsChunk "ContentBlockStart::Thinking"],
       { s with content_blocks := insertBlock s.content_blocks index (.Thinking "" none) })
    | .RedactedThinking data =>
      (.chunks [nsChunk "ContentBlockStart::RedactedThinking"],
       { s with content_blocks := insertBlock s.content_blocks index (.RedactedThinking data) })
    | .ToolUse id name _ =>
      (.chunks [nsChunk "ContentBlockStart::ToolUse"],
       { s with content_blocks := insertBlock s.content_blocks index (.ToolUse id name "") })
  | .ContentBlockDelta index delta =>
    match lookupBlock s.content_blocks index with
    | some block =>
      let (block', cs) := applyDelta block delta
      (.chunks cs, { s with content_blocks := updateBlock s.content_blocks index block' })
    | none =>
      (.panicOut "ClaudeCode accumulator must be initialized on ContentBlockStart", s)
  | .ContentBlockStop _ => (.chunks [nsChunk "ContentBlockStop"], s)
  | .MessageDelta usage => (.chunks [nsChunk "MessageDelta"], { s with usage := some usage })
  | .MessageStop => (.chunks (finalizeAll (ord s.content_blocks) s.usage), s)
  | .Error type_ message => (.chunks [.Delta (.Failed (type_ ++ ": " ++ message))], s)
  | .NotSupported txt => (.chunks [.Delta (.NotSupported txt)], s)

/-- The result of folding a whole event sequence: the chunks emitted in
order, whether the fold aborted (`unreachable!`), and the final state. -/
structure RunResult where
  chunks : List Chunk
  panicked : Option String
  final : StreamState
  deriving Repr

/-- Fold `claudeStep` over an event list from a given state. -/
def claudeRunFrom (ord : BlockMap → BlockMap) (s : StreamState) :
    List AnthropicStreamEvent → RunResult
  | [] => ⟨[], none, s⟩
  | e :: rest =>
    match claudeStep ord s e with
    | (.panicOut m, s') => ⟨[], some m, s'⟩
    | (.chunks cs, s') =>
      let r := claudeRunFrom ord s' rest
      ⟨cs ++ r.chunks, r.panicked, r.final⟩

/-- The ClaudeCode `stream_text` chunk fold over a decoded event
sequence, from the default (empty) state. -/
def claudeRun (ord : BlockMap → BlockMap) (evts : List AnthropicStreamEvent) : RunResult :=
  claudeRunFrom ord {} evts

/-! ## Establishment retry loop

The loop at the top of `stream_text` — identical in
src/providers/claudecode/mod.rs (lines 252–272) and
src/providers/codex/language_model.rs (lines 46–66):
`max_retries = 5`, `retry_count = 0`, `wait_time = 1s`; an
`Error::ApiError` whose status is `Some(429)` is retried while
`retry_count < max_retries`, sleeping `wait_time` and doubling it; any
other error is returned at once. -/

/-- The guard pattern `Error::ApiError { status_code: Some(status), .. }
if status == TOO_MANY_REQUESTS`. -/
def is429 : Error → Bool
  | .apiError (some status) _ => status == 429
  | _ => false

/-- The retry loop.  `attempt i` is the outcome of the `i`-th call of
`send_and_stream` (`none` = the stream was established).  `budget` is
`max_retries - retry_count`, so the guard `retry_count < max_retries`
is exactly `budget ≠ 0`; the loop is entered with `budget = 5`.
Returns (number of attempts made, waits slept in order, surfaced error
if any). -/
def retryGo (attempt : Nat → Option Error) :
    Nat → Nat → Nat → Nat × List Nat × Option Error
  | 0, retry_count, _wait_time =>
    match attempt retry_count with
    | none => (1, [], none)
    | some e => (1, [], some e)
  | budget + 1, retry_count, wait_time =>
    match attempt retry_count with
    | none => (1, [], none)
    | some e =>
      if is429 e then
        let r := retryGo attempt budget (retry_count + 1) (wait_time * 2)
        (r.1 + 1, wait_time :: r.2.1, r.2.2)
      else (1, [], some e)

/-- The whole establishment phase: `max_retries = 5`, starting wait of
one time unit. -/
def retryLoop (attempt : Nat → Option Error) : Nat × List Nat × Option Error :=
  retryGo attempt 5 0 1

/-! ## Codex wire decoding and chunk normalization
(src/providers/codex/client.rs and src/providers/codex/language_model.rs) -/

/-- `reqwest_eventsource::Event`: an `Open` notification or a message
frame with its joined data payload. -/
inductive SseEvent where
  | Open
  | Message (data : String)
  deriving Repr

/-- `OpenAiStreamEvent` (the "OpenAI-responses-family" vendor events).
The defining module `providers/openai/client/types.rs` is not among the
provided sources; the variants are reconstructed from the match in
`src/providers/codex/language_model.rs`.  `ResponseCompleted` is
modelled with an absent response payload (`output`/`usage` both `None`),
which is all the claims under study exercise;  `ResponseIncomplete`
carries `response.incomplete_details.reason`. -/
inductive OpenAiStreamEvent where
  | ResponseOutputTextDelta (delta : String)
  | ResponseReasoningSummaryTextDelta (delta : String)
  | ResponseCompleted
  | ResponseIncomplete (incomplete_details : Option String)
  | ResponseError (code : Option String) (message : String)
  | NotSupported (raw : String)
  deriving Repr, DecidableEq

/-- Modelled from the spec: the serde shape-match of a JSON value against
the known OpenAI-responses-family event shapes (`types.rs` is missing
from the sources).  Events are discriminated by their `type` tag
(`response.output_text.delta`, `response.reasoning_summary_text.delta`,
`response.completed`, `response.incomplete`, `error`); a value matching
no known shape yields `none`. -/
def codexMatchEvent (v : Json) : Option OpenAiStreamEvent :=
  match v with
  | .obj fields =>
    let get := fun (k : String) => (fields.find? (fun f => f.1 == k)).map Prod.snd
    let getStr := fun (k : String) =>
      match get k with
      | some (.str s) => some s
      | _ => none
    match get "type" with
    | some (.str "response.output_text.delta") =>
      (getStr "delta").map .ResponseOutputTextDelta
    | some (.str "response.reasoning_summary_text.delta") =>
      (getStr "delta").map .ResponseReasoningSummaryTextDelta
    | some (.str "response.completed") => some .ResponseCompleted
    | some (.str "response.incomplete") => some (.ResponseIncomplete (getStr "reason"))
    | some (.str "error") =>
      (getStr "message").map (fun m => .ResponseError (getStr "code") m)
    | _ => none
  | _ => none

/-- Codex `parse_stream_sse` (src/providers/codex/client.rs, lines
64–96).  The argument models `Result<Event, reqwest_eventsource::Error>`
with the transport error reduced to its extracted status code and
message. -/
def codexParseStreamSse (event : Except (Option Nat × String) SseEvent) :
    Except Error OpenAiStreamEvent :=
  match event with
  | .ok .Open => .ok (.NotSupported "\x7b\x7d")
  | .ok (.Message data) =>
    if strTrim data == "[DONE]" || data == "" then
      .ok (.NotSupported "[END]")
    else
      match parseJson data with
      | none => .error (.apiError none "Invalid JSON in SSE data")
      | some value => .ok ((codexMatchEvent value).getD (.NotSupported data))
  | .error (status_code, details) => .error (.apiError status_code details)

/-- The frame decoding inside the spawned loop of Codex
`send_and_stream` (src/providers/codex/client.rs, lines 175–180):
`serde_json::from_str::<OpenAiStreamEvent>(&data).unwrap_or(NotSupported(data))`
— a failure of either the JSON parse or the shape match falls back to
`NotSupported` carrying the payload. -/
def codexFrameDecode (data : String) : OpenAiStreamEvent :=
  if strTrim data == "[DONE]" || isBlank data then
    .NotSupported "[END]"
  else
    ((parseJson data).bind codexMatchEvent).getD (.NotSupported data)

/-- The early-return check of the spawned frame loop (lines 185–191):
the loop stops only after `ResponseCompleted` or `ResponseError`. -/
def codexFrameLoopStops : OpenAiStreamEvent → Bool
  | .ResponseCompleted => true
  | .ResponseError _ _ => true
  | _ => false

/-- Codex `end_stream` (src/providers/codex/client.rs, lines 98–102). -/
def codexEndStream : OpenAiStreamEvent → Bool
  | .ResponseCompleted => true
  | .NotSupported json => json == "[END]"
  | .ResponseError _ _ => true
  | _ => false

/-- Escape a string the way Rust's `Debug` for `String` renders it
(quotes and backslashes escaped, surrounded by quotes). -/
def rustDebugStr (s : String) : String :=
  "\"" ++ String.mk (s.data.flatMap (fun c =>
    if c = '"' then ['\\', '"']
    else if c = '\\' then ['\\', '\\']
    else [c])) ++ "\""

/-- Model of `format!("{evt:?}")` (derived `Debug`) on the event variants. -/
def debugFmt : OpenAiStreamEvent → String
  | .ResponseOutputTextDelta d =>
    "ResponseOutputTextDelta \x7b delta: " ++ rustDebugStr d ++ " \x7d"
  | .ResponseReasoningSummaryTextDelta d =>
    "ResponseReasoningSummaryTextDelta \x7b delta: " ++ rustDebugStr d ++ " \x7d"
  | .ResponseCompleted => "ResponseCompleted"
  | .ResponseIncomplete _ => "ResponseIncomplete"
  | .ResponseError _ _ => "ResponseError"
  | .NotSupported raw => "NotSupported(" ++ rustDebugStr raw ++ ")"

/-- The Codex chunk normalizer: the `map` closure of `stream_text`
(src/providers/codex/language_model.rs, lines 68–149) applied to one
decoded event (or decode error).  `ResponseCompleted` is modelled with
an absent response payload, for which the finalization loop produces no
`Done` chunks. -/
def codexChunkMap : Except Error OpenAiStreamEvent → Except Error (List Chunk)
  | .ok (.ResponseOutputTextDelta delta) => .ok [.Delta (.Text delta)]
  | .ok (.ResponseReasoningSummaryTextDelta delta) => .ok [.Delta (.Reasoning delta)]
  | .ok .ResponseCompleted => .ok []
  | .ok (.ResponseIncomplete incomplete_details) =>
    .ok [.Delta (.Incomplete (incomplete_details.getD "Unknown"))]
  | .ok (.ResponseError code message) =>
    .ok [.Delta (.Failed ((code.getD "unknown") ++ ": " ++ message))]
  | .ok evt => .ok [.Delta (.NotSupported (debugFmt evt))]
  | .error e => .error e

/-- Codex `generate_text` (src/providers/codex/language_model.rs, lines
28–35): unconditionally an error, before any request is issued.  The
options argument is modelled from the spec as the generic prompt and
tool list (the `core` module is missing from the sources); the function
ignores it (`_options`). -/
structure LanguageModelOptions where
  prompt : String := ""
  tools : List String := []
  deriving Repr

/-- Placeholder for `LanguageModelResponse` (never produced by Codex
`generate_text`). -/
structure LanguageModelResponse where
  contents : List ContentType := []
  usage : Option Usage := none
  deriving Repr

def codexGenerateText (_options : LanguageModelOptions) :
    Except Error LanguageModelResponse :=
  .error (.other "Codex provider supports streaming only; use stream_text()")

/-! ## Google wire decoding (src/providers/google/client/mod.rs) -/

/-- Modelled from the spec: the "Google-family" response wrapper — a
single `response` event with per-candidate parts
(`google/client/types.rs` is missing from the sources).  Only the
structure needed by the decoder claims is retained. -/
structure GoogleCandidate where
  text_parts : List String := []
  finish_reason : Option String := none
  deriving Repr, DecidableEq

/-- Modelled from the spec: `GenerateContentResponse`. -/
structure GoogleResponse where
  candidates : List GoogleCandidate := []
  deriving Repr, DecidableEq

/-- `GoogleStreamEvent`. -/
inductive GoogleStreamEvent where
  | Response (resp : GoogleResponse)
  | NotSupported (raw : String)
  deriving Repr, DecidableEq

/-- Modelled from the spec: the serde shape-match of a JSON value
against `GenerateContentResponse` — an object carrying a `candidates`
array of objects; anything else matches no known shape. -/
def googleMatchResponse (v : Json) : Option GoogleResponse :=
  match v with
  | .obj fields =>
    match (fields.find? (fun f => f.1 == "candidates")).map Prod.snd with
    | some (.arr cands) =>
      let parseCand : Json → Option GoogleCandidate := fun c =>
        match c with
        | .obj _ => some {}
        | _ => none
      (cands.mapM parseCand).map (fun cs => { candidates := cs })
    | _ => none
  | _ => none

/-- Google `parse_stream_sse` (src/providers/google/client/mod.rs, lines
149–168).  The Google variant of `Error::ApiError` carries a single
message string; errors are modelled as that string. -/
def googleParseStreamSse (event : Except String SseEvent) :
    Except String GoogleStreamEvent :=
  match event with
  | .ok .Open => .ok (.NotSupported "\x7b\x7d")
  | .ok (.Message data) =>
    match parseJson data with
    | none => .error "Invalid JSON in SSE data"
    | some value =>
      .ok (((googleMatchResponse value).map GoogleStreamEvent.Response).getD
        (.NotSupported data))
  | .error e => .error e

/-! ## Vercel AI-SDK UI chunk filter
(src/integrations/vercel_aisdk_ui.rs, lines 228–293) -/

/-- `VercelUIStreamOptions` (the id generator is modelled by passing the
generated message id explicitly). -/
structure VercelUIStreamOptions where
  send_reasoning : Bool := false
  send_start : Bool := false
  send_finish : Bool := false
  deriving Repr

/-- `VercelUIStream`: the UI chunk vocabulary. -/
inductive VercelUIStream where
  | TextStart (id : String) (provider_metadata : Option Json)
  | TextDelta (id : String) (delta : String) (provider_metadata : Option Json)
  | TextEnd (id : String) (provider_metadata : Option Json)
  | ReasoningStart (id : String) (provider_metadata : Option Json)
  | ReasoningDelta (id : String) (delta : String) (provider_metadata : Option Json)
  | ReasoningEnd (id : String) (provider_metadata : Option Json)
  | ToolCallStart (id : String) (tool_call_id : String) (tool_name : String)
      (provider_metadata : Option Json)
  | ToolCallDelta (id : String) (tool_call_id : String) (delta : String)
      (provider_metadata : Option Json)
  | ToolCallEnd (id : String) (tool_call_id : String) (result : Json)
      (provider_metadata : Option Json)
  | Error (error_text : String)
  | NotSupported (error_text : String)
  deriving Repr

/-- The match of the `filter_map` closure of `into_vercel_ui_stream`
over one `LanguageModelStreamChunkType`.  Guarded arms whose guard fails
fall through to the final `_ => None`. -/
def vercelMapChunk (options : VercelUIStreamOptions) (message_id : String) :
    ChunkType → Option VercelUIStream
  | .Start =>
    if options.send_start then some (.TextStart message_id none) else none
  | .Text delta => some (.TextDelta message_id delta none)
  | .Reasoning delta =>
    if options.send_reasoning then some (.ReasoningDelta message_id delta none) else none
  | .ToolCall _ => some (.ToolCallStart message_id "unknown" "unknown" none)
  | .End _ =>
    if options.send_finish then some (.TextEnd message_id none) else none
  | .Failed error => some (.Error error)
  | .Incomplete error => some (.Error error)
  | .NotSupported _ => none

/-- `into_vercel_ui_stream`: `filter_map` of `vercelMapChunk` over the
chunk-type stream. -/
def intoVercelUiStream (options : VercelUIStreamOptions) (message_id : String)
    (chunks : List ChunkType) : List VercelUIStream :=
  chunks.filterMap (vercelMapChunk options message_id)

/-- The delta chunk types of a normalized chunk list (the view of the
provider stream consumed as `LanguageModelStreamChunkType`s). -/
def deltaTypes (chunks : List Chunk) : List ChunkType :=
  chunks.filterMap (fun c => match c with
    | .Delta t => some t
    | .Done _ => none)

/-! ## Derived views and the block-kind taxonomy used by the theorems -/

/-- Whether a chunk is a finalized `Done` chunk. -/
def isDoneChunk : Chunk → Bool
  | .Done _ => true
  | .Delta _ => false

/-- The `Done` chunks of a chunk list. -/
def doneChunks (cs : List Chunk) : List Chunk :=
  cs.filter isDoneChunk

/-- The texts of the `Done` chunks carrying `Text` content, in order. -/
def doneChunkTexts (cs : List Chunk) : List String :=
  cs.filterMap (fun c => match c with
    | .Done ⟨.Text t, _⟩ => some t
    | _ => none)

/-- The indices carried by the `ContentBlockStart` events of a sequence,
in order of occurrence. -/
def openedIndices (evts : List AnthropicStreamEvent) : List Nat :=
  evts.filterMap (fun e => match e with
    | .ContentBlockStart i _ => some i
    | _ => none)

/-- The four block kinds of the spec's state machine. -/
inductive BlockKind where
  | text
  | thinking
  | redactedThinking
  | toolUse
  deriving Repr, DecidableEq

/-- The kind a `ContentBlockStart` payload opens. -/
def startKind : AnthropicContentBlock → BlockKind
  | .Text _ => .text
  | .Thinking _ _ => .thinking
  | .RedactedThinking _ => .redactedThinking
  | .ToolUse _ _ _ => .toolUse

/-- The kind of an accumulated block. -/
def accKind : AccumulatedBlock → BlockKind
  | .Text _ => .text
  | .Thinking _ _ => .thinking
  | .RedactedThinking _ => .redactedThinking
  | .ToolUse _ _ _ => .toolUse

/-- The kind correspondence of the spec between an opened block kind and
its finalized content item: Text block to Text content,
Thinking/RedactedThinking block to Reasoning content, ToolUse block to a
tool-call content item. -/
def contentMatchesKind : BlockKind → ContentType → Bool
  | .text, .Text _ => true
  | .thinking, .Reasoning _ _ => true
  | .redactedThinking, .Reasoning _ _ => true
  | .toolUse, .ToolCall _ _ _ => true
  | _, _ => false

/-- Whether a block finalizes without a tool-JSON parse failure: for a
ToolUse block, its accumulated fragment (blank treated as the empty
object) parses; trivially true for the other kinds. -/
def toolJsonOk : AccumulatedBlock → Bool
  | .ToolUse _ _ aj => (parseJson (if isBlank aj then "\x7b\x7d" else aj)).isSome
  | _ => true

/-- The pairs `(block, delta)` handled by a mutating arm of the
`ContentBlockDelta` match; every other pair is a kind mismatch. -/
def deltaKindMatches : AccumulatedBlock → AnthropicDelta → Bool
  | .Text _, .TextDelta _ => true
  | .Thinking _ _, .ThinkingDelta _ => true
  | .Thinking _ _, .SignatureDelta _ => true
  | .ToolUse _ _ _, .ToolUseDelta _ => true
  | _, _ => false

/-- Whether a UI chunk is a reasoning delta. -/
def isReasoningUi : VercelUIStream → Bool
  | .ReasoningDelta _ _ _ => true
  | _ => false

/-- Whether a normalized chunk type is a reasoning delta. -/
def isReasoningChunkType : ChunkType → Bool
  | .Reasoning _ => true
  | _ => false

/-! # Theorems settling the claims -/

/-! ## C10 — Codex `generate_text` always errors -/

/-- C10: for the Codex provider, the non-streaming `generate_text`
operation returns an error for every possible options value; it never
returns a response.  (The function body is a single unconditional
`Err(Error::Other(..))`.) -/
theorem c10_codex_generate_text_always_errors (options : LanguageModelOptions) :
    codexGenerateText options =
      .error (.other "Codex provider supports streaming only; use stream_text()") :=
  rfl

/-! ## C8 — ToolUse finalization parses the concatenated fragments -/

/-- The C8 scenario frames: `block-start(0, tool-use, id="t1", name="f")`,
`delta(0, the fragment starting the object)`, `delta(0, the closing
brace)`, `message-stop`. -/
def c8Events : List AnthropicStreamEvent :=
  [.ContentBlockStart 0 (.ToolUse "t1" "f" .null),
   .ContentBlockDelta 0 (.ToolUseDelta "\x7b\"a\":1"),
   .ContentBlockDelta 0 (.ToolUseDelta "\x7d"),
   .MessageStop]

/-- C8: finalizing a ToolUse block parses the concatenation of its
streamed JSON fragments as the tool call's input object: on the scenario
frames exactly one `Done` chunk is emitted, whose content is a tool-call
item with input the object `a = 1`, id `"t1"` and name `"f"`; and a
blank accumulated fragment is treated as the empty object. -/
theorem c8_tool_use_finalization :
    ((claudeRun id c8Events).panicked = none ∧
      doneChunks (claudeRun id c8Events).chunks =
        [.Done ⟨.ToolCall (.obj [("a", .num 1 0)]) "t1" "f", none⟩]) ∧
    (∀ id name aj, isBlank aj = true →
      finalizeBlock (.ToolUse id name aj) = .ToolCall (.obj []) id name) := by
  refine ⟨⟨rfl, by rfl⟩, ?_⟩
  intro id name aj h
  simp only [finalizeBlock, h, if_true]
  rfl

/-- C8 witness: the blank-fragment conjunct of `c8_tool_use_finalization`
instantiated at a whitespace-only fragment. -/
theorem c8_witness :
    isBlank " " = true ∧
      finalizeBlock (.ToolUse "t9" "g" " ") = .ToolCall (.obj []) "t9" "g" :=
  ⟨by decide, c8_tool_use_finalization.2 "t9" "g" " " (by decide)⟩

/-! ## C4 — invalid tool JSON at finalization is isolated and non-fatal -/

/-- C4: at `MessageStop` finalization, a ToolUse block whose accumulated
fragment does not parse produces exactly one `NotSupported` content item
carrying the raw fragment, in place, while every other block in the same
turn finalizes exactly as it would on its own; and the `MessageStop`
step itself emits these finalizations as chunks without failing or
aborting (the state is left intact, no error value is produced). -/
theorem c4_invalid_tool_json_isolated (l₁ l₂ : BlockMap) (k : Nat)
    (id name aj : String) (usage : Option Usage)
    (hbad : parseJson (if isBlank aj then "\x7b\x7d" else aj) = none) :
    finalizeAll (l₁ ++ (k, .ToolUse id name aj) :: l₂) usage =
      finalizeAll l₁ usage ++
        .Done ⟨.NotSupported ("Invalid tool json: " ++ aj), usage⟩ ::
          finalizeAll l₂ usage ∧
    (∀ (ord : BlockMap → BlockMap) (s : StreamState),
      claudeStep ord s .MessageStop =
        (.chunks (finalizeAll (ord s.content_blocks) s.usage), s)) := by
  constructor
  · simp only [finalizeAll, List.map_append, List.map_cons]
    simp only [finalizeBlock, hbad]
  · intro ord s
    rfl

/-- C4 witness: `c4_invalid_tool_json_isolated` at a concrete turn —
a text block, a ToolUse block with the unclosed fragment, and another
text block; the bad block alone becomes `NotSupported`, its neighbours
finalize untouched. -/
theorem c4_witness :
    parseJson (if isBlank "\x7b\"a\":1" then "\x7b\x7d" else "\x7b\"a\":1") = none ∧
    finalizeAll [(0, .Text "hi"), (1, .ToolUse "t" "f" "\x7b\"a\":1"), (2, .Text "yo")] none =
      finalizeAll [(0, .Text "hi")] none ++
        .Done ⟨.NotSupported ("Invalid tool json: " ++ "\x7b\"a\":1"), none⟩ ::
          finalizeAll [(2, .Text "yo")] none :=
  ⟨rfl, (c4_invalid_tool_json_isolated [(0, .Text "hi")] [(2, .Text "yo")]
    1 "t" "f" "\x7b\"a\":1" none rfl).1⟩

/-! ## C1 — delta to an absent or kind-mismatched block -/

/-- `lookupBlock` answers only entries of the map. -/
theorem lookupBlock_mem {m : BlockMap} {i : Nat} {b : AccumulatedBlock}
    (h : lookupBlock m i = some b) : (i, b) ∈ m := by
  induction m with
  | nil => simp [lookupBlock] at h
  | cons p rest ih =>
    obtain ⟨j, c⟩ := p
    by_cases hji : j = i
    · subst hji
      simp [lookupBlock] at h
      simp [h]
    · simp [lookupBlock, hji] at h
      exact List.mem_cons_of_mem _ (ih h)

/-- Writing back the value just read leaves the map unchanged. -/
theorem updateBlock_self {m : BlockMap} {i : Nat} {b : AccumulatedBlock}
    (h : lookupBlock m i = some b) : updateBlock m i b = m := by
  induction m with
  | nil => rfl
  | cons p rest ih =>
    obtain ⟨j, c⟩ := p
    by_cases hji : j = i
    · subst hji
      simp [lookupBlock] at h
      simp [updateBlock, h]
    · simp [lookupBlock, hji] at h
      simp [updateBlock, hji, ih h]

/-- A kind-mismatched `(block, delta)` pair falls to the catch-all arm:
the block is unchanged and one `NotSupported` chunk is emitted. -/
theorem applyDelta_mismatch {b : AccumulatedBlock} {d : AnthropicDelta}
    (h : deltaKindMatches b d = false) :
    applyDelta b d = (b, [nsChunk "ContentBlockDelta"]) := by
  cases b <;> cases d <;> simp_all [deltaKindMatches, applyDelta]

/-- The C1 probe frames: a ToolUse block is opened at index 0, then two
text-deltas target it (a kind mismatch). -/
def c1Events : List AnthropicStreamEvent :=
  [.ContentBlockStart 0 (.ToolUse "t1" "f" .null),
   .ContentBlockDelta 0 (.TextDelta "x"),
   .ContentBlockDelta 0 (.TextDelta "y")]

/-- C1 counterexample: a text-delta targeting an open ToolUse block (a
kind mismatch) does NOT fail the stream — it is emitted as a
`NotSupported` delta chunk and the stream keeps emitting chunks (a
second chunk follows the violating one); no `Failed` value appears and
the fold does not abort. -/
theorem c1_counterexample :
    (claudeRun id c1Events).chunks =
      [nsChunk "ContentBlockStart::ToolUse",
       nsChunk "ContentBlockDelta",
       nsChunk "ContentBlockDelta"] ∧
    (claudeRun id c1Events).panicked = none :=
  ⟨rfl, rfl⟩

/-- C1 (amended): a content-delta whose index has no open block aborts
the stream task by panic (the `unreachable!` arm) — no descriptive error
value is emitted; a content-delta whose payload kind does not match the
open block's kind is emitted as a `NotSupported` chunk with the state
unchanged, and the stream continues. -/
theorem c1_delta_to_absent_or_mismatched_block
    (ord : BlockMap → BlockMap) (s : StreamState) (i : Nat) (d : AnthropicDelta) :
    (lookupBlock s.content_blocks i = none →
      claudeStep ord s (.ContentBlockDelta i d) =
        (.panicOut "ClaudeCode accumulator must be initialized on ContentBlockStart", s)) ∧
    (∀ b, lookupBlock s.content_blocks i = some b → deltaKindMatches b d = false →
      claudeStep ord s (.ContentBlockDelta i d) =
        (.chunks [nsChunk "ContentBlockDelta"], s)) := by
  constructor
  · intro h
    simp [claudeStep, h]
  · intro b hb hmis
    simp [claudeStep, hb, applyDelta_mismatch hmis, updateBlock_self hb]

/-- C1 witness: `c1_delta_to_absent_or_mismatched_block` at a concrete
state holding one ToolUse block at index 0 — a text-delta to the absent
index 5 panics, a text-delta to index 0 (kind mismatch) becomes a
`NotSupported` chunk with the state unchanged. -/
theorem c1_witness :
    (lookupBlock [(0, .ToolUse "t1" "f" "")] 5 = none ∧
      claudeStep id ⟨[(0, .ToolUse "t1" "f" "")], none⟩ (.ContentBlockDelta 5 (.TextDelta "x")) =
        (.panicOut "ClaudeCode accumulator must be initialized on ContentBlockStart",
          ⟨[(0, .ToolUse "t1" "f" "")], none⟩)) ∧
    (deltaKindMatches (.ToolUse "t1" "f" "") (.TextDelta "x") = false ∧
      claudeStep id ⟨[(0, .ToolUse "t1" "f" "")], none⟩ (.ContentBlockDelta 0 (.TextDelta "x")) =
        (.chunks [nsChunk "ContentBlockDelta"], ⟨[(0, .ToolUse "t1" "f" "")], none⟩)) :=
  ⟨⟨rfl, (c1_delta_to_absent_or_mismatched_block id
      ⟨[(0, .ToolUse "t1" "f" "")], none⟩ 5 (.TextDelta "x")).1 rfl⟩,
   ⟨rfl, (c1_delta_to_absent_or_mismatched_block id
      ⟨[(0, .ToolUse "t1" "f" "")], none⟩ 0 (.TextDelta "x")).2 (.ToolUse "t1" "f" "") rfl rfl⟩⟩

/-! ## C2 — establishment retry policy -/

/-- Unfolding: a successful attempt ends the loop at once. -/
theorem retryGo_none (attempt : Nat → Option Error) (b rc w : Nat)
    (h : attempt rc = none) : retryGo attempt b rc w = (1, [], none) := by
  cases b <;> simp [retryGo, h]

/-- Unfolding: a 429 failure with budget left sleeps `w`, doubles the
wait, and recurses. -/
theorem retryGo_429 (attempt : Nat → Option Error) (b rc w : Nat) (e : Error)
    (h : attempt rc = some e) (h4 : is429 e = true) :
    retryGo attempt (b + 1) rc w =
      ((retryGo attempt b (rc + 1) (w * 2)).1 + 1,
        w :: (retryGo attempt b (rc + 1) (w * 2)).2.1,
        (retryGo attempt b (rc + 1) (w * 2)).2.2) := by
  simp [retryGo, h, h4]

/-- Unfolding: a non-429 failure is surfaced at once. -/
theorem retryGo_other (attempt : Nat → Option Error) (b rc w : Nat) (e : Error)
    (h : attempt rc = some e) (h4 : is429 e = false) :
    retryGo attempt b rc w = (1, [], some e) := by
  cases b <;> simp [retryGo, h, h4]

/-- Unfolding: an exhausted budget surfaces the failure at once. -/
theorem retryGo_budget_zero (attempt : Nat → Option Error) (rc w : Nat) (e : Error)
    (h : attempt rc = some e) : retryGo attempt 0 rc w = (1, [], some e) := by
  simp [retryGo, h]

/-- The attempt count is bounded by the budget plus one. -/
theorem retryGo_attempts_le (attempt : Nat → Option Error) :
    ∀ b rc w, (retryGo attempt b rc w).1 ≤ b + 1 := by
  intro b
  induction b with
  | zero =>
    intro rc w
    cases h : attempt rc with
    | none => simp [retryGo_none attempt 0 rc w h]
    | some e => simp [retryGo_budget_zero attempt rc w e h]
  | succ b ih =>
    intro rc w
    cases h : attempt rc with
    | none => simp [retryGo_none attempt (b + 1) rc w h]
    | some e =>
      cases h4 : is429 e with
      | true =>
        rw [retryGo_429 attempt b rc w e h h4]
        have := ih (rc + 1) (w * 2)
        omega
      | false => simp [retryGo_other attempt (b + 1) rc w e h h4]

/-- C2 counterexample: with 5 consecutive 429 responses followed by a
success, the loop makes a 6th attempt (which succeeds and is surfaced)
after 5 waits of 1, 2, 4, 8, 16 — contradicting "at most 5 attempts in
total" and "given 5 consecutive 429 responses the 5th failure is
surfaced to the caller without a 6th attempt". -/
theorem c2_counterexample :
    retryLoop (fun i => if i < 5 then some (.apiError (some 429) "rate limited") else none) =
      (6, [1, 2, 4, 8, 16], none) := by
  decide

/-- C2 (amended): the loop makes at most 6 attempts (the initial one
plus up to `max_retries = 5` retries); 4 consecutive 429 responses
followed by a success yield exactly 4 waits (1, 2, 4, 8) and surface the
5th attempt's success; with 429 on every one of the first 6 attempts,
the 6th attempt's failure is surfaced after waits 1, 2, 4, 8, 16 and no
7th attempt is made; any non-429 establishment failure is surfaced
immediately with no waits. -/
theorem c2_retry_policy :
    (∀ attempt : Nat → Option Error, (retryLoop attempt).1 ≤ 6) ∧
    (∀ attempt : Nat → Option Error,
      (∀ i, i < 4 → ∃ e, attempt i = some e ∧ is429 e = true) → attempt 4 = none →
      retryLoop attempt = (5, [1, 2, 4, 8], none)) ∧
    (∀ attempt : Nat → Option Error,
      (∀ i, i ≤ 5 → ∃ e, attempt i = some e ∧ is429 e = true) →
      ∃ e₅, attempt 5 = some e₅ ∧ retryLoop attempt = (6, [1, 2, 4, 8, 16], some e₅)) ∧
    (∀ (attempt : Nat → Option Error) (e : Error),
      attempt 0 = some e → is429 e = false → retryLoop attempt = (1, [], some e)) := by
  refine ⟨?_, ?_, ?_, ?_⟩
  · intro attempt
    exact retryGo_attempts_le attempt 5 0 1
  · intro attempt h4 hok
    obtain ⟨e₀, he₀, g₀⟩ := h4 0 (by omega)
    obtain ⟨e₁, he₁, g₁⟩ := h4 1 (by omega)
    obtain ⟨e₂, he₂, g₂⟩ := h4 2 (by omega)
    obtain ⟨e₃, he₃, g₃⟩ := h4 3 (by omega)
    have s4 := retryGo_none attempt 1 4 16 hok
    have s3 := retryGo_429 attempt 1 3 8 e₃ he₃ g₃
    have s2 := retryGo_429 attempt 2 2 4 e₂ he₂ g₂
    have s1 := retryGo_429 attempt 3 1 2 e₁ he₁ g₁
    have s0 := retryGo_429 attempt 4 0 1 e₀ he₀ g₀
    show retryGo attempt 5 0 1 = (5, [1, 2, 4, 8], none)
    rw [show (5 : Nat) = 4 + 1 from rfl, s0]
    rw [show (4 : Nat) = 3 + 1 from rfl, s1]
    rw [show (3 : Nat) = 2 + 1 from rfl, s2]
    rw [show (2 : Nat) = 1 + 1 from rfl, s3]
    rw [s4]
  · intro attempt h4
    obtain ⟨e₀, he₀, g₀⟩ := h4 0 (by omega)
    obtain ⟨e₁, he₁, g₁⟩ := h4 1 (by omega)
    obtain ⟨e₂, he₂, g₂⟩ := h4 2 (by omega)
    obtain ⟨e₃, he₃, g₃⟩ := h4 3 (by omega)
    obtain ⟨e₄, he₄, g₄⟩ := h4 4 (by omega)
    obtain ⟨e₅, he₅, g₅⟩ := h4 5 (by omega)
    refine ⟨e₅, he₅, ?_⟩
    have s5 := retryGo_budget_zero attempt 5 32 e₅ he₅
    have s4 := retryGo_429 attempt 0 4 16 e₄ he₄ g₄
    have s3 := retryGo_429 attempt 1 3 8 e₃ he₃ g₃
    have s2 := retryGo_429 attempt 2 2 4 e₂ he₂ g₂
    have s1 := retryGo_429 attempt 3 1 2 e₁ he₁ g₁
    have s0 := retryGo_429 attempt 4 0 1 e₀ he₀ g₀
    show retryGo attempt 5 0 1 = (6, [1, 2, 4, 8, 16], some e₅)
    rw [show (5 : Nat) = 4 + 1 from rfl, s0]
    rw [show (4 : Nat) = 3 + 1 from rfl, s1]
    rw [show (3 : Nat) = 2 + 1 from rfl, s2]
    rw [show (2 : Nat) = 1 + 1 from rfl, s3]
    rw [show (1 : Nat) = 0 + 1 from rfl, s4]
    rw [s5]
  · intro attempt e h0 hn
    exact retryGo_other attempt 5 0 1 e h0 hn

/-- C2 witness: the parts of `c2_retry_policy` instantiated at concrete
attempt outcomes — 4 rate limits then success; rate limits throughout;
an immediate HTTP 500. -/
theorem c2_witness :
    retryLoop (fun i => if i < 4 then some (.apiError (some 429) "r") else none) =
      (5, [1, 2, 4, 8], none) ∧
    retryLoop (fun _ => some (.apiError (some 429) "r")) =
      (6, [1, 2, 4, 8, 16], some (.apiError (some 429) "r")) ∧
    retryLoop (fun _ => some (.apiError (some 500) "boom")) =
      (1, [], some (.apiError (some 500) "boom")) := by
  refine ⟨?_, ?_, ?_⟩
  · exact c2_retry_policy.2.1 _
      (fun i hi => ⟨.apiError (some 429) "r", by simp [hi], rfl⟩) (by norm_num)
  · obtain ⟨e₅, he₅, h⟩ := c2_retry_policy.2.2.1 (fun _ => some (.apiError (some 429) "r"))
      (fun i _ => ⟨.apiError (some 429) "r", rfl, rfl⟩)
    cases he₅
    exact h
  · exact c2_retry_policy.2.2.2 _ (.apiError (some 500) "boom") rfl rfl

/-! ## C3 — wire-decoder policy on unmatched and invalid payloads -/

/-- C3 counterexample: the frame decoder inside Codex `send_and_stream`
maps a payload that is not valid JSON to the `NotSupported` variant
carrying the raw payload — not to a fatal decode error — and the frame
loop does not stop on it, so the stream continues. -/
theorem c3_counterexample :
    parseJson "nope" = none ∧
    codexFrameDecode "nope" = .NotSupported "nope" ∧
    codexFrameLoopStops (.NotSupported "nope") = false :=
  ⟨rfl, rfl, rfl⟩

/-- C3 (amended): in `parse_stream_sse` (Codex and Google) well-formed
JSON matching no known event shape becomes `NotSupported` carrying the
raw payload and invalid JSON is a fatal decode error; but the frame loop
inside Codex `send_and_stream` decodes frames itself and maps invalid
JSON (like unmatched JSON) to `NotSupported` carrying the raw payload,
with no error and no stream failure. -/
theorem c3_wire_decoder_policy :
    (∀ data : String, strTrim data ≠ "[DONE]" → data ≠ "" → parseJson data = none →
      codexParseStreamSse (.ok (.Message data)) =
        .error (.apiError none "Invalid JSON in SSE data")) ∧
    (∀ (data : String) (v : Json), strTrim data ≠ "[DONE]" → data ≠ "" →
      parseJson data = some v → codexMatchEvent v = none →
      codexParseStreamSse (.ok (.Message data)) = .ok (.NotSupported data)) ∧
    (∀ data : String, parseJson data = none →
      googleParseStreamSse (.ok (.Message data)) = .error "Invalid JSON in SSE data") ∧
    (∀ (data : String) (v : Json), parseJson data = some v →
      googleMatchResponse v = none →
      googleParseStreamSse (.ok (.Message data)) = .ok (.NotSupported data)) ∧
    (∀ data : String, strTrim data ≠ "[DONE]" → isBlank data = false →
      parseJson data = none → codexFrameDecode data = .NotSupported data) ∧
    (∀ (data : String) (v : Json), strTrim data ≠ "[DONE]" → isBlank data = false →
      parseJson data = some v → codexMatchEvent v = none →
      codexFrameDecode data = .NotSupported data) := by
  refine ⟨?_, ?_, ?_, ?_, ?_, ?_⟩
  · intro data h1 h2 hp
    simp [codexParseStreamSse, h1, h2, hp]
  · intro data v h1 h2 hp hm
    simp [codexParseStreamSse, h1, h2, hp, hm]
  · intro data hp
    simp [googleParseStreamSse, hp]
  · intro data v hp hm
    simp [googleParseStreamSse, hp, hm]
  · intro data h1 hb hp
    simp [codexFrameDecode, h1, hb, hp]
  · intro data v h1 hb hp hm
    simp [codexFrameDecode, h1, hb, hp, hm]

/-- C3 witness: `c3_wire_decoder_policy` at concrete payloads — the
invalid payload `nope` and a well-formed object payload matching no
event shape. -/
theorem c3_witness :
    codexParseStreamSse (.ok (.Message "nope")) =
      .error (.apiError none "Invalid JSON in SSE data") ∧
    codexParseStreamSse (.ok (.Message "\x7b\"x\":2\x7d")) =
      .ok (.NotSupported "\x7b\"x\":2\x7d") ∧
    googleParseStreamSse (.ok (.Message "nope")) = .error "Invalid JSON in SSE data" ∧
    googleParseStreamSse (.ok (.Message "[1]")) = .ok (.NotSupported "[1]") ∧
    codexFrameDecode "nope" = .NotSupported "nope" ∧
    codexFrameDecode "\x7b\"x\":2\x7d" = .NotSupported "\x7b\"x\":2\x7d" :=
  ⟨c3_wire_decoder_policy.1 "nope" (by decide) (by decide) rfl,
   c3_wire_decoder_policy.2.1 "\x7b\"x\":2\x7d" (.obj [("x", .num 2 0)])
     (by decide) (by decide) rfl rfl,
   c3_wire_decoder_policy.2.2.1 "nope" rfl,
   c3_wire_decoder_policy.2.2.2.1 "[1]" (.arr [.num 1 0]) rfl rfl,
   c3_wire_decoder_policy.2.2.2.2.1 "nope" (by decide) (by decide) rfl,
   c3_wire_decoder_policy.2.2.2.2.2 "\x7b\"x\":2\x7d" (.obj [("x", .num 2 0)])
     (by decide) (by decide) rfl rfl⟩

/-! ## C7 — the end-of-stream sentinels -/

/-- C7 counterexample: `[DONE]` and the empty payload both decode to the
distinguished `NotSupported("[END]")` marker (never `Failed`, never an
error) — but the marker is NOT consumed as an end-of-stream signal in
the Codex streaming path: the chunk normalizer forwards it to the caller
as a `NotSupported` delta chunk, and the frame loop does not stop on
it. -/
theorem c7_counterexample :
    codexParseStreamSse (.ok (.Message "[DONE]")) = .ok (.NotSupported "[END]") ∧
    codexFrameDecode "" = .NotSupported "[END]" ∧
    codexChunkMap (.ok (.NotSupported "[END]")) =
      .ok [.Delta (.NotSupported "NotSupported(\"[END]\")")] ∧
    codexFrameLoopStops (.NotSupported "[END]") = false :=
  ⟨rfl, rfl, rfl, rfl⟩

/-- C7 (amended): every `[DONE]` or empty data payload decodes — in both
Codex decoders — to the same distinguished `NotSupported("[END]")`
marker, never to a `Failed` chunk and never to a decode error; the
`end_stream` predicate classifies the marker as end-of-stream; however,
in the Codex streaming path the marker is forwarded to the caller as a
`NotSupported` delta chunk rather than being consumed, and the frame
loop does not terminate on it. -/
theorem c7_done_sentinel_handling (data : String)
    (h : strTrim data = "[DONE]" ∨ data = "") :
    codexParseStreamSse (.ok (.Message data)) = .ok (.NotSupported "[END]") ∧
    codexFrameDecode data = .NotSupported "[END]" ∧
    codexEndStream (.NotSupported "[END]") = true ∧
    codexChunkMap (.ok (.NotSupported "[END]")) =
      .ok [.Delta (.NotSupported "NotSupported(\"[END]\")")] ∧
    codexFrameLoopStops (.NotSupported "[END]") = false := by
  have hcond₁ : (strTrim data == "[DONE]" || data == "") = true := by
    rcases h with h | h <;> simp [h]
  have hcond₂ : (strTrim data == "[DONE]" || isBlank data) = true := by
    rcases h with h | h <;> simp [h, isBlank]
  refine ⟨?_, ?_, rfl, rfl, rfl⟩
  · simp [codexParseStreamSse, hcond₁]
  · simp [codexFrameDecode, hcond₂]

/-- C7 witness: `c7_done_sentinel_handling` at the literal `[DONE]`
payload. -/
theorem c7_witness :
    codexParseStreamSse (.ok (.Message "[DONE]")) = .ok (.NotSupported "[END]") ∧
    codexFrameDecode "[DONE]" = .NotSupported "[END]" ∧
    codexEndStream (.NotSupported "[END]") = true :=
  have h := c7_done_sentinel_handling "[DONE]" (.inl (by decide))
  ⟨h.1, h.2.1, h.2.2.1⟩

/-! ## C6 — reasoning deltas versus the caller's reasoning option -/

/-- The C6 probe frames: a Thinking block is opened, then the vendor
streams one thinking delta. -/
def c6Events : List AnthropicStreamEvent :=
  [.ContentBlockStart 0 (.Thinking "" ""),
   .ContentBlockDelta 0 (.ThinkingDelta "abc")]

/-- C6 counterexample: a vendor thinking delta reaches the caller as a
TEXT delta even though reasoning output was not requested (all options
off): the ClaudeCode fold normalizes `ThinkingDelta` to a `Text` chunk,
which the UI layer forwards unconditionally.  The violating delta is
neither dropped nor delivered as a reasoning delta. -/
theorem c6_counterexample :
    ({} : VercelUIStreamOptions).send_reasoning = false ∧
    intoVercelUiStream {} "m" (deltaTypes (claudeRun id c6Events).chunks) =
      [.TextDelta "m" "abc" none] :=
  ⟨rfl, rfl⟩

/-- `List.any` over a `filterMap` checks the mapped survivors. -/
theorem any_filterMap {α β : Type} (f : α → Option β) (p : β → Bool) :
    ∀ l : List α, (l.filterMap f).any p = l.any (fun a => ((f a).map p).getD false) := by
  intro l
  induction l with
  | nil => rfl
  | cons a l ih => cases h : f a <;> simp [List.filterMap_cons, h, ih]

/-- A constant conjunct distributes out of `List.any`. -/
theorem any_const_and {α : Type} (b : Bool) (p : α → Bool) :
    ∀ l : List α, (l.any fun a => b && p a) = (b && l.any p) := by
  intro l
  cases b <;> simp

/-- One UI mapping step yields a reasoning delta exactly when the chunk
is a reasoning delta and the option is on. -/
theorem vercelMapChunk_reasoning (opts : VercelUIStreamOptions) (mid : String) :
    ∀ c, ((vercelMapChunk opts mid c).map isReasoningUi).getD false =
      (opts.send_reasoning && isReasoningChunkType c) := by
  intro c
  cases c with
  | Start =>
    cases h : opts.send_start <;> simp [vercelMapChunk, h, isReasoningUi, isReasoningChunkType]
  | Text d => simp [vercelMapChunk, isReasoningUi, isReasoningChunkType]
  | Reasoning d =>
    cases h : opts.send_reasoning <;>
      simp [vercelMapChunk, h, isReasoningUi, isReasoningChunkType]
  | ToolCall f => simp [vercelMapChunk, isReasoningUi, isReasoningChunkType]
  | End i =>
    cases h : opts.send_finish <;> simp [vercelMapChunk, h, isReasoningUi, isReasoningChunkType]
  | Failed r => simp [vercelMapChunk, isReasoningUi, isReasoningChunkType]
  | Incomplete r => simp [vercelMapChunk, isReasoningUi, isReasoningChunkType]
  | NotSupported r => simp [vercelMapChunk, isReasoningUi, isReasoningChunkType]

/-- C6 (amended): at the UI-integration layer, the output contains a
reasoning delta exactly when the caller requested reasoning output AND
the normalized chunk stream contains a `Reasoning` chunk (so with the
option off, vendor `Reasoning` chunks are dropped, not re-labelled); but
the providers do not themselves apply the option: the ClaudeCode fold
emits a vendor thinking delta as a `Text` chunk — which the UI layer
forwards as a text delta unconditionally — and the Codex normalizer
emits `Reasoning` chunks unconditionally. -/
theorem c6_reasoning_gating :
    (∀ (opts : VercelUIStreamOptions) (mid : String) (chunks : List ChunkType),
      (intoVercelUiStream opts mid chunks).any isReasoningUi =
        (opts.send_reasoning && chunks.any isReasoningChunkType)) ∧
    (∀ th (sig : Option String) dt,
      applyDelta (.Thinking th sig) (.ThinkingDelta dt) =
        (.Thinking (th ++ dt) sig, [.Delta (.Text dt)])) ∧
    (∀ (opts : VercelUIStreamOptions) (mid : String) (d : String),
      vercelMapChunk opts mid (.Text d) = some (.TextDelta mid d none)) ∧
    (∀ d : String,
      codexChunkMap (.ok (.ResponseReasoningSummaryTextDelta d)) =
        .ok [.Delta (.Reasoning d)]) := by
  refine ⟨?_, fun th sig dt => rfl, fun opts mid d => rfl, fun d => rfl⟩
  intro opts mid chunks
  rw [intoVercelUiStream, any_filterMap]
  calc (chunks.any fun c => ((vercelMapChunk opts mid c).map isReasoningUi).getD false)
      = (chunks.any fun c => opts.send_reasoning && isReasoningChunkType c) := by
        simp only [vercelMapChunk_reasoning]
    _ = (opts.send_reasoning && chunks.any isReasoningChunkType) :=
        any_const_and _ _ _

/-! ## C9 — determinism and ordering of the chunk sequence -/

/-- Every step other than `MessageStop` neither consults the iteration
order nor emits `Done` chunks, so it is unaffected by it. -/
theorem claudeStep_ord_irrel (ord ord' : BlockMap → BlockMap) (s : StreamState)
    (e : AnthropicStreamEvent) (he : e ≠ .MessageStop) :
    claudeStep ord s e = claudeStep ord' s e := by
  cases e with
  | MessageStop => exact absurd rfl he
  | ContentBlockStart i cb => cases cb <;> rfl
  | ContentBlockDelta i d =>
    cases h : lookupBlock s.content_blocks i <;> simp [claudeStep, h]
  | MessageStart => rfl
  | ContentBlockStop i => rfl
  | MessageDelta u => rfl
  | Error t m => rfl
  | NotSupported t => rfl

/-- Unfolding of the fold on a cons cell. -/
theorem claudeRunFrom_cons (ord : BlockMap → BlockMap) (s : StreamState)
    (e : AnthropicStreamEvent) (rest : List AnthropicStreamEvent) :
    claudeRunFrom ord s (e :: rest) =
      match claudeStep ord s e with
      | (.panicOut m, s') => ⟨[], some m, s'⟩
      | (.chunks cs, s') =>
        ⟨cs ++ (claudeRunFrom ord s' rest).chunks, (claudeRunFrom ord s' rest).panicked,
          (claudeRunFrom ord s' rest).final⟩ := by
  rfl

/-- `deltaTypes` distributes over append. -/
theorem deltaTypes_append (l₁ l₂ : List Chunk) :
    deltaTypes (l₁ ++ l₂) = deltaTypes l₁ ++ deltaTypes l₂ := by
  simp [deltaTypes, List.filterMap_append]

/-- Finalization emits only `Done` chunks: its delta view is empty. -/
theorem deltaTypes_finalizeAll (l : BlockMap) (u : Option Usage) :
    deltaTypes (finalizeAll l u) = [] := by
  induction l with
  | nil => rfl
  | cons a l ih =>
    simp only [finalizeAll, List.map_cons, deltaTypes, List.filterMap_cons] at ih ⊢
    exact ih

/-- The ClaudeCode fold compared under two iteration orders of
`HashMap::values()` (the second being insertion order): the chunk lists
are permutations of each other, the delta chunks agree exactly, and
panic behavior and final state agree. -/
theorem claudeRunFrom_ord_perm (ord : BlockMap → BlockMap)
    (hperm : ∀ m : BlockMap, (ord m).Perm m) :
    ∀ (evts : List AnthropicStreamEvent) (s : StreamState),
      (claudeRunFrom ord s evts).chunks.Perm ((claudeRunFrom id s evts).chunks) ∧
      deltaTypes (claudeRunFrom ord s evts).chunks =
        deltaTypes (claudeRunFrom id s evts).chunks ∧
      (claudeRunFrom ord s evts).panicked = (claudeRunFrom id s evts).panicked ∧
      (claudeRunFrom ord s evts).final = (claudeRunFrom id s evts).final := by
  intro evts
  induction evts with
  | nil => exact fun s => ⟨List.Perm.refl _, rfl, rfl, rfl⟩
  | cons e rest ih =>
    intro s
    by_cases he : e = .MessageStop
    · subst he
      have hord : claudeRunFrom ord s (.MessageStop :: rest) =
          ⟨finalizeAll (ord s.content_blocks) s.usage ++ (claudeRunFrom ord s rest).chunks,
            (claudeRunFrom ord s rest).panicked, (claudeRunFrom ord s rest).final⟩ := rfl
      have hid : claudeRunFrom id s (.MessageStop :: rest) =
          ⟨finalizeAll s.content_blocks s.usage ++ (claudeRunFrom id s rest).chunks,
            (claudeRunFrom id s rest).panicked, (claudeRunFrom id s rest).final⟩ := rfl
      rw [hord, hid]
      obtain ⟨p₁, p₂, p₃, p₄⟩ := ih s
      refine ⟨List.Perm.append ((hperm s.content_blocks).map _) p₁, ?_, p₃, p₄⟩
      rw [deltaTypes_append, deltaTypes_append, deltaTypes_finalizeAll,
        deltaTypes_finalizeAll, p₂]
    · have hstep : claudeStep ord s e = claudeStep id s e :=
        claudeStep_ord_irrel ord id s e he
      rcases hso : claudeStep id s e with ⟨out, s'⟩
      cases out with
      | panicOut m =>
        rw [claudeRunFrom_cons, claudeRunFrom_cons, hstep, hso]
        exact ⟨List.Perm.refl _, rfl, rfl, rfl⟩
      | chunks cs =>
        rw [claudeRunFrom_cons, claudeRunFrom_cons, hstep, hso]
        obtain ⟨p₁, p₂, p₃, p₄⟩ := ih s'
        exact ⟨List.Perm.append (List.Perm.refl cs) p₁,
          by rw [deltaTypes_append, deltaTypes_append, p₂], p₃, p₄⟩

/-- The C9 probe frames: two text blocks with one delta each, then
message-stop. -/
def c9Events : List AnthropicStreamEvent :=
  [.ContentBlockStart 0 (.Text ""), .ContentBlockDelta 0 (.TextDelta "a"),
   .ContentBlockStart 1 (.Text ""), .ContentBlockDelta 1 (.TextDelta "b"),
   .MessageStop]

/-- C9 counterexample: two runs of the fold over the SAME event sequence
under two admissible `HashMap::values()` iteration orders (insertion
order and its reverse — both permutations of the entries) finalize the
two `Done` chunks of the single message-stop in different relative
orders, so the chunk sequence is not a function of the event sequence
alone. -/
theorem c9_counterexample :
    doneChunkTexts (claudeRun id c9Events).chunks = ["a", "b"] ∧
    doneChunkTexts (claudeRun List.reverse c9Events).chunks = ["b", "a"] ∧
    (doneChunkTexts (claudeRun id c9Events).chunks ==
      doneChunkTexts (claudeRun List.reverse c9Events).chunks) = false ∧
    ((claudeRun id c9Events).final.content_blocks.reverse).Perm
      (claudeRun id c9Events).final.content_blocks :=
  ⟨rfl, rfl, rfl, List.reverse_perm _⟩

/-- C9 (amended): the chunk sequence is a deterministic function of the
decoded event sequence AND the `HashMap::values()` iteration order; for
any admissible order (a permutation of the accumulated entries) the
emitted chunk list is a permutation of the insertion-order run's, the
delta chunks agree exactly (order-preserving, as emitted), and panic
behavior and final state agree — only the relative order of the `Done`
chunks finalized from a message-stop depends on the unspecified order. -/
theorem c9_chunk_order (ord : BlockMap → BlockMap)
    (hperm : ∀ m : BlockMap, (ord m).Perm m) (evts : List AnthropicStreamEvent) :
    (claudeRun ord evts).chunks.Perm ((claudeRun id evts).chunks) ∧
    deltaTypes (claudeRun ord evts).chunks = deltaTypes (claudeRun id evts).chunks ∧
    (claudeRun ord evts).panicked = (claudeRun id evts).panicked ∧
    (claudeRun ord evts).final = (claudeRun id evts).final :=
  claudeRunFrom_ord_perm ord hperm evts {}

/-- C9 witness: `c9_chunk_order` instantiated at the reverse iteration
order and the probe frames. -/
theorem c9_witness :
    (claudeRun List.reverse c9Events).chunks.Perm ((claudeRun id c9Events).chunks) ∧
    deltaTypes (claudeRun List.reverse c9Events).chunks =
      deltaTypes (claudeRun id c9Events).chunks ∧
    (claudeRun List.reverse c9Events).panicked = (claudeRun id c9Events).panicked ∧
    (claudeRun List.reverse c9Events).final = (claudeRun id c9Events).final :=
  c9_chunk_order List.reverse (fun m => m.reverse_perm) c9Events

/-! ## C5 — finalized item count and kinds match the opened blocks -/

/-- The keys of the block map. -/
def blockKeys (m : BlockMap) : List Nat := m.map Prod.fst

/-- Key membership after an insert. -/
theorem insertBlock_key_mem (m : BlockMap) (i : Nat) (b : AccumulatedBlock) (j : Nat) :
    j ∈ blockKeys (insertBlock m i b) ↔ j = i ∨ j ∈ blockKeys m := by
  induction m with
  | nil => simp [insertBlock, blockKeys]
  | cons p rest ih =>
    obtain ⟨k, c⟩ := p
    by_cases hki : k = i
    · subst hki
      simp [insertBlock, blockKeys]
    · simp [insertBlock, hki, blockKeys] at ih ⊢
      tauto

/-- Inserting preserves key distinctness. -/
theorem insertBlock_nodup (m : BlockMap) (i : Nat) (b : AccumulatedBlock)
    (h : (blockKeys m).Nodup) : (blockKeys (insertBlock m i b)).Nodup := by
  induction m with
  | nil => simp [insertBlock, blockKeys]
  | cons p rest ih =>
    obtain ⟨k, c⟩ := p
    simp only [blockKeys, List.map_cons, List.nodup_cons] at h
    by_cases hki : k = i
    · subst hki
      have hins : insertBlock ((k, c) :: rest) k b = (k, b) :: rest := by
        simp [insertBlock]
      rw [hins]
      simp only [blockKeys, List.map_cons, List.nodup_cons]
      exact h
    · have hins : insertBlock ((k, c) :: rest) i b = (k, c) :: insertBlock rest i b := by
        simp [insertBlock, hki]
      rw [hins]
      simp only [blockKeys, List.map_cons, List.nodup_cons]
      refine ⟨?_, ih h.2⟩
      intro hk
      rcases (insertBlock_key_mem rest i b k).1 hk with rfl | hk'
      · exact hki rfl
      · exact h.1 hk'

/-- Entries after an insert come from the new entry or the old map. -/
theorem insertBlock_entry_mem (m : BlockMap) (i : Nat) (b : AccumulatedBlock)
    (j : Nat) (c : AccumulatedBlock) :
    (j, c) ∈ insertBlock m i b → (j = i ∧ c = b) ∨ (j, c) ∈ m := by
  induction m with
  | nil =>
    intro h
    simp [insertBlock] at h
    exact .inl h
  | cons p rest ih =>
    obtain ⟨k, d⟩ := p
    intro hmem
    by_cases hki : k = i
    · subst hki
      have hins : insertBlock ((k, d) :: rest) k b = (k, b) :: rest := by
        simp [insertBlock]
      rw [hins] at hmem
      rcases List.mem_cons.1 hmem with h | h
      · simp only [Prod.mk.injEq] at h
        exact .inl h
      · exact .inr (List.mem_cons_of_mem _ h)
    · have hins : insertBlock ((k, d) :: rest) i b = (k, d) :: insertBlock rest i b := by
        simp [insertBlock, hki]
      rw [hins] at hmem
      rcases List.mem_cons.1 hmem with h | h
      · exact .inr (List.mem_cons.2 (.inl h))
      · rcases ih h with h' | h'
        · exact .inl h'
        · exact .inr (List.mem_cons_of_mem _ h')

/-- An in-place update leaves the keys unchanged. -/
theorem updateBlock_keys (m : BlockMap) (i : Nat) (b : AccumulatedBlock) :
    blockKeys (updateBlock m i b) = blockKeys m := by
  induction m with
  | nil => rfl
  | cons p rest ih =>
    obtain ⟨k, c⟩ := p
    by_cases hki : k = i
    · subst hki
      simp [updateBlock, blockKeys]
    · simp only [updateBlock, if_neg hki, blockKeys, List.map_cons] at ih ⊢
      rw [ih]

/-- Entries after an in-place update come from the new value or the old
map. -/
theorem updateBlock_entry_mem (m : BlockMap) (i : Nat) (b : AccumulatedBlock)
    (j : Nat) (c : AccumulatedBlock) :
    (j, c) ∈ updateBlock m i b → (j = i ∧ c = b) ∨ (j, c) ∈ m := by
  induction m with
  | nil => intro h; simp [updateBlock] at h
  | cons p rest ih =>
    obtain ⟨k, d⟩ := p
    intro hmem
    by_cases hki : k = i
    · subst hki
      have hupd : updateBlock ((k, d) :: rest) k b = (k, b) :: rest := by
        simp [updateBlock]
      rw [hupd] at hmem
      rcases List.mem_cons.1 hmem with h | h
      · simp only [Prod.mk.injEq] at h
        exact .inl ⟨h.1, h.2⟩
      · exact .inr (List.mem_cons_of_mem _ h)
    · have hupd : updateBlock ((k, d) :: rest) i b = (k, d) :: updateBlock rest i b := by
        simp [updateBlock, hki]
      rw [hupd] at hmem
      rcases List.mem_cons.1 hmem with h | h
      · exact .inr (List.mem_cons.2 (.inl h))
      · rcases ih h with h' | h'
        · exact .inl h'
        · exact .inr (List.mem_cons_of_mem _ h')

/-- `openedIndices` distributes over append. -/
theorem openedIndices_append (l₁ l₂ : List AnthropicStreamEvent) :
    openedIndices (l₁ ++ l₂) = openedIndices l₁ ++ openedIndices l₂ := by
  simp [openedIndices, List.filterMap_append]

/-- The invariant tying the block map to the events processed so far:
keys are distinct, a key is present exactly when its index was opened by
a `ContentBlockStart`, and each entry's kind is the kind opened by one
of its index's `ContentBlockStart` events. -/
def MapInv (body : List AnthropicStreamEvent) (m : BlockMap) : Prop :=
  (blockKeys m).Nodup ∧
  (∀ i, i ∈ blockKeys m ↔ i ∈ openedIndices body) ∧
  (∀ i b, (i, b) ∈ m →
    ∃ cb, AnthropicStreamEvent.ContentBlockStart i cb ∈ body ∧ accKind b = startKind cb)

/-- The invariant extends over an event that opens nothing. -/
theorem MapInv.extend {P : List AnthropicStreamEvent} {m : BlockMap}
    (e : AnthropicStreamEvent) (hop : openedIndices [e] = []) (h : MapInv P m) :
    MapInv (P ++ [e]) m := by
  obtain ⟨h₁, h₂, h₃⟩ := h
  refine ⟨h₁, ?_, ?_⟩
  · intro i
    rw [h₂, openedIndices_append, hop, List.append_nil]
  · intro i b hib
    obtain ⟨cb, hcb, hk⟩ := h₃ i b hib
    exact ⟨cb, List.mem_append_left _ hcb, hk⟩

/-- The invariant extends over a block-start inserting a fresh block of
the opened kind. -/
theorem MapInv.insert {P : List AnthropicStreamEvent} {m : BlockMap}
    (i : Nat) (cb : AnthropicContentBlock) (v : AccumulatedBlock)
    (hv : accKind v = startKind cb) (h : MapInv P m) :
    MapInv (P ++ [.ContentBlockStart i cb]) (insertBlock m i v) := by
  obtain ⟨h₁, h₂, h₃⟩ := h
  refine ⟨insertBlock_nodup m i v h₁, ?_, ?_⟩
  · intro j
    rw [insertBlock_key_mem, openedIndices_append, h₂ j,
      show openedIndices [AnthropicStreamEvent.ContentBlockStart i cb] = [i] from rfl]
    simp only [List.mem_append, List.mem_singleton]
    tauto
  · intro j b hjb
    rcases insertBlock_entry_mem m i v j b hjb with ⟨rfl, rfl⟩ | hold
    · exact ⟨cb, by simp, hv⟩
    · obtain ⟨cb', hcb', hk⟩ := h₃ j b hold
      exact ⟨cb', List.mem_append_left _ hcb', hk⟩

/-- The invariant extends over a kind-preserving in-place update. -/
theorem MapInv.update {P : List AnthropicStreamEvent} {m : BlockMap}
    (e : AnthropicStreamEvent) (i : Nat) (b v : AccumulatedBlock)
    (hl : lookupBlock m i = some b) (hkv : accKind v = accKind b)
    (hop : openedIndices [e] = []) (h : MapInv P m) :
    MapInv (P ++ [e]) (updateBlock m i v) := by
  obtain ⟨h₁, h₂, h₃⟩ := h
  refine ⟨by rw [updateBlock_keys]; exact h₁, ?_, ?_⟩
  · intro j
    rw [updateBlock_keys, h₂, openedIndices_append, hop, List.append_nil]
  · intro j c hjc
    rcases updateBlock_entry_mem m i v j c hjc with ⟨rfl, rfl⟩ | hold
    · obtain ⟨cb, hcb, hkb⟩ := h₃ j b (lookupBlock_mem hl)
      exact ⟨cb, List.mem_append_left _ hcb, hkv.trans hkb⟩
    · obtain ⟨cb, hcb, hkb⟩ := h₃ j c hold
      exact ⟨cb, List.mem_append_left _ hcb, hkb⟩

/-- A delta never changes the kind of the block it mutates. -/
theorem applyDelta_kind (b : AccumulatedBlock) (d : AnthropicDelta) :
    accKind (applyDelta b d).1 = accKind b := by
  cases b <;> cases d <;> rfl

/-- One fold step preserves the invariant (relative to the grown event
prefix). -/
theorem mapInv_step (ord : BlockMap → BlockMap) (s : StreamState)
    (e : AnthropicStreamEvent) (out : StepOut) (s' : StreamState)
    (P : List AnthropicStreamEvent)
    (hso : claudeStep ord s e = (out, s')) (h : MapInv P s.content_blocks) :
    MapInv (P ++ [e]) s'.content_blocks := by
  cases e with
  | MessageStart => cases hso; exact h.extend _ rfl
  | ContentBlockStart i cb =>
    cases cb with
    | Text t => cases hso; exact h.insert i (.Text t) (.Text "") rfl
    | Thinking a b => cases hso; exact h.insert i (.Thinking a b) (.Thinking "" none) rfl
    | RedactedThinking dta =>
      cases hso; exact h.insert i (.RedactedThinking dta) (.RedactedThinking dta) rfl
    | ToolUse id name inp =>
      cases hso; exact h.insert i (.ToolUse id name inp) (.ToolUse id name "") rfl
  | ContentBlockDelta i d =>
    cases hl : lookupBlock s.content_blocks i with
    | none =>
      have hred : claudeStep ord s (.ContentBlockDelta i d) =
          (.panicOut "ClaudeCode accumulator must be initialized on ContentBlockStart", s) := by
        simp [claudeStep, hl]
      rw [hred] at hso
      cases hso
      exact h.extend _ rfl
    | some b =>
      have hred : claudeStep ord s (.ContentBlockDelta i d) =
          (.chunks (applyDelta b d).2,
            { s with content_blocks := updateBlock s.content_blocks i (applyDelta b d).1 }) := by
        simp [claudeStep, hl]
      rw [hred] at hso
      cases hso
      exact h.update _ i b _ hl (applyDelta_kind b d) rfl
  | ContentBlockStop i => cases hso; exact h.extend _ rfl
  | MessageDelta u => cases hso; exact h.extend _ rfl
  | MessageStop => cases hso; exact h.extend _ rfl
  | Error a b => cases hso; exact h.extend _ rfl
  | NotSupported t => cases hso; exact h.extend _ rfl

/-- The invariant holds along any panic-free fold. -/
theorem mapInv_run (ord : BlockMap → BlockMap) :
    ∀ (evts P : List AnthropicStreamEvent) (s : StreamState),
      MapInv P s.content_blocks → (claudeRunFrom ord s evts).panicked = none →
      MapInv (P ++ evts) (claudeRunFrom ord s evts).final.content_blocks := by
  intro evts
  induction evts with
  | nil =>
    intro P s h _
    simpa using h
  | cons e rest ih =>
    intro P s h hpan
    rw [claudeRunFrom_cons] at hpan ⊢
    rcases hso : claudeStep ord s e with ⟨out, s'⟩
    rw [hso] at hpan
    cases out with
    | panicOut m => simp at hpan
    | chunks cs =>
      dsimp at hpan ⊢
      have h' := mapInv_step ord s e _ s' P hso h
      have := ih (P ++ [e]) s' h' hpan
      simpa [List.append_assoc] using this

/-- Delta processing emits no `Done` chunks. -/
theorem applyDelta_no_done (b : AccumulatedBlock) (d : AnthropicDelta) :
    doneChunks (applyDelta b d).2 = [] := by
  cases b <;> cases d <;> rfl

/-- `doneChunks` distributes over append. -/
theorem doneChunks_append (l₁ l₂ : List Chunk) :
    doneChunks (l₁ ++ l₂) = doneChunks l₁ ++ doneChunks l₂ := by
  simp [doneChunks, List.filter_append]

/-- Steps on events other than `MessageStop` emit no `Done` chunks. -/
theorem step_no_done (ord : BlockMap → BlockMap) (s : StreamState)
    (e : AnthropicStreamEvent) (out : StepOut) (s' : StreamState)
    (he : e ≠ .MessageStop) (hso : claudeStep ord s e = (out, s'))
    (cs : List Chunk) (hout : out = .chunks cs) : doneChunks cs = [] := by
  subst hout
  cases e with
  | MessageStop => exact absurd rfl he
  | MessageStart => cases hso; rfl
  | ContentBlockStart i cb => cases cb <;> (cases hso; rfl)
  | ContentBlockDelta i d =>
    cases hl : lookupBlock s.content_blocks i with
    | none =>
      have hred : claudeStep ord s (.ContentBlockDelta i d) =
          (.panicOut "ClaudeCode accumulator must be initialized on ContentBlockStart", s) := by
        simp [claudeStep, hl]
      rw [hred] at hso
      cases hso
    | some b =>
      have hred : claudeStep ord s (.ContentBlockDelta i d) =
          (.chunks (applyDelta b d).2,
            { s with content_blocks := updateBlock s.content_blocks i (applyDelta b d).1 }) := by
        simp [claudeStep, hl]
      rw [hred] at hso
      cases hso
      exact applyDelta_no_done b d
  | ContentBlockStop i => cases hso; rfl
  | MessageDelta u => cases hso; rfl
  | Error a b => cases hso; rfl
  | NotSupported t => cases hso; rfl

/-- A fold over a stop-free event list emits no `Done` chunks. -/
theorem run_no_done (ord : BlockMap → BlockMap) :
    ∀ (evts : List AnthropicStreamEvent) (s : StreamState),
      (∀ e ∈ evts, e ≠ .MessageStop) →
      doneChunks (claudeRunFrom ord s evts).chunks = [] := by
  intro evts
  induction evts with
  | nil => intro s _; rfl
  | cons e rest ih =>
    intro s hne
    rw [claudeRunFrom_cons]
    rcases hso : claudeStep ord s e with ⟨out, s'⟩
    cases out with
    | panicOut m => rfl
    | chunks cs =>
      dsimp
      rw [doneChunks_append, step_no_done ord s e _ s' (hne e (by simp)) hso cs rfl,
        ih s' (fun x hx => hne x (by simp [hx]))]
      rfl

/-- Finalization emits only `Done` chunks. -/
theorem doneChunks_finalizeAll (l : BlockMap) (u : Option Usage) :
    doneChunks (finalizeAll l u) = finalizeAll l u := by
  induction l with
  | nil => rfl
  | cons a l ih =>
    simp only [finalizeAll, List.map_cons, doneChunks, List.filter_cons] at ih ⊢
    simp only [isDoneChunk, if_true]
    rw [ih]

/-- Finalization yields one chunk per accumulated block. -/
theorem finalizeAll_length (l : BlockMap) (u : Option Usage) :
    (finalizeAll l u).length = l.length := by
  simp [finalizeAll]

/-- A block that passes the tool-JSON check finalizes into a content
item of its own kind. -/
theorem finalizeBlock_kind (b : AccumulatedBlock) (hok : toolJsonOk b = true) :
    contentMatchesKind (accKind b) (finalizeBlock b) = true := by
  cases b with
  | Text t => rfl
  | Thinking a s => rfl
  | RedactedThinking d => rfl
  | ToolUse id name aj =>
    simp only [toolJsonOk] at hok
    cases hp : parseJson (if isBlank aj then "\x7b\x7d" else aj) with
    | none => rw [hp] at hok; simp at hok
    | some v => simp [finalizeBlock, accKind, contentMatchesKind, hp]

/-- Under the invariant, the map size is the number of distinct opened
indices. -/
theorem mapInv_card {body : List AnthropicStreamEvent} {m : BlockMap}
    (h : MapInv body m) : m.length = (openedIndices body).toFinset.card := by
  obtain ⟨h₁, h₂, h₃⟩ := h
  have hkeys : (blockKeys m).toFinset = (openedIndices body).toFinset := by
    ext j
    simp [List.mem_toFinset, h₂ j]
  calc m.length = (blockKeys m).length := by simp [blockKeys]
    _ = (blockKeys m).toFinset.card := (List.toFinset_card_of_nodup h₁).symm
    _ = (openedIndices body).toFinset.card := by rw [hkeys]

/-- The fold is compositional over append: a panic truncates, otherwise
the runs chain. -/
theorem claudeRunFrom_append (ord : BlockMap → BlockMap) :
    ∀ (l₁ l₂ : List AnthropicStreamEvent) (s : StreamState),
      claudeRunFrom ord s (l₁ ++ l₂) =
        match (claudeRunFrom ord s l₁).panicked with
        | some _ => claudeRunFrom ord s l₁
        | none =>
          ⟨(claudeRunFrom ord s l₁).chunks ++
              (claudeRunFrom ord (claudeRunFrom ord s l₁).final l₂).chunks,
            (claudeRunFrom ord (claudeRunFrom ord s l₁).final l₂).panicked,
            (claudeRunFrom ord (claudeRunFrom ord s l₁).final l₂).final⟩ := by
  intro l₁
  induction l₁ with
  | nil => intro l₂ s; rfl
  | cons e rest ih =>
    intro l₂ s
    rw [List.cons_append, claudeRunFrom_cons, claudeRunFrom_cons]
    rcases hso : claudeStep ord s e with ⟨out, s'⟩
    cases out with
    | panicOut m => rfl
    | chunks cs =>
      dsimp
      cases hp : (claudeRunFrom ord s' rest).panicked with
      | some m => simp [ih l₂ s', hp]
      | none => simp [ih l₂ s', hp, List.append_assoc]

/-- `claudeRun` unfolded to the fold from the empty state. -/
theorem claudeRun_eq (ord : BlockMap → BlockMap) (evts : List AnthropicStreamEvent) :
    claudeRun ord evts = claudeRunFrom ord {} evts := rfl

/-- C5: for every well-formed stream — a body free of `message-stop`
followed by one `message-stop`, processed without panic (all deltas hit
open blocks) and with every accumulated ToolUse fragment parseable — the
number of `Done` chunks emitted equals the number of distinct block
indices opened, and every finalized item stems from a block whose kind
is the kind its `block-start` opened, with the item's content kind
matching it (Text to Text, Thinking/RedactedThinking to Reasoning,
ToolUse to a tool call). -/
theorem c5_finalization_counts_and_kinds
    (ord : BlockMap → BlockMap) (hperm : ∀ m : BlockMap, (ord m).Perm m)
    (body : List AnthropicStreamEvent) (hns : AnthropicStreamEvent.MessageStop ∉ body)
    (hpan : (claudeRun ord (body ++ [.MessageStop])).panicked = none)
    (htool : ∀ p ∈ (claudeRun ord (body ++ [.MessageStop])).final.content_blocks,
      toolJsonOk p.2 = true) :
    (doneChunks (claudeRun ord (body ++ [.MessageStop])).chunks).length =
      (openedIndices body).toFinset.card ∧
    (∀ c ∈ doneChunks (claudeRun ord (body ++ [.MessageStop])).chunks,
      ∃ i cb b, AnthropicStreamEvent.ContentBlockStart i cb ∈ body ∧
        (i, b) ∈ (claudeRun ord (body ++ [.MessageStop])).final.content_blocks ∧
        accKind b = startKind cb ∧
        c = .Done ⟨finalizeBlock b, (claudeRun ord (body ++ [.MessageStop])).final.usage⟩ ∧
        contentMatchesKind (startKind cb) (finalizeBlock b) = true) := by
  have happ := claudeRunFrom_append ord body [.MessageStop] ({} : StreamState)
  rw [claudeRun_eq] at hpan htool ⊢
  cases hp₁ : (claudeRunFrom ord {} body).panicked with
  | some m =>
    rw [happ, hp₁] at hpan
    dsimp at hpan
    rw [hp₁] at hpan
    exact absurd hpan (by simp)
  | none =>
    have hstop : claudeRunFrom ord (claudeRunFrom ord {} body).final
        [AnthropicStreamEvent.MessageStop] =
        ⟨finalizeAll (ord (claudeRunFrom ord {} body).final.content_blocks)
            (claudeRunFrom ord {} body).final.usage ++ [], none,
          (claudeRunFrom ord {} body).final⟩ := rfl
    have hr : claudeRunFrom ord {} (body ++ [AnthropicStreamEvent.MessageStop]) =
        ⟨(claudeRunFrom ord {} body).chunks ++
            (finalizeAll (ord (claudeRunFrom ord {} body).final.content_blocks)
              (claudeRunFrom ord {} body).final.usage ++ []), none,
          (claudeRunFrom ord {} body).final⟩ := by
      rw [happ, hp₁]
      dsimp
      rw [hstop]
    have hinv₀ : MapInv [] ({} : StreamState).content_blocks := by
      refine ⟨List.nodup_nil, ?_, ?_⟩
      · intro i
        simp [blockKeys, openedIndices]
      · intro i b h
        simp at h
    have hinv := mapInv_run ord body [] {} hinv₀ hp₁
    rw [List.nil_append] at hinv
    have hdone : doneChunks (claudeRunFrom ord {} (body ++ [AnthropicStreamEvent.MessageStop])).chunks =
        finalizeAll (ord (claudeRunFrom ord {} body).final.content_blocks)
          (claudeRunFrom ord {} body).final.usage := by
      rw [hr]
      dsimp only
      rw [List.append_nil, doneChunks_append,
        run_no_done ord body {} (fun e he heq => hns (heq ▸ he)),
        doneChunks_finalizeAll, List.nil_append]
    refine ⟨?_, ?_⟩
    · rw [hdone, finalizeAll_length, (hperm _).length_eq, mapInv_card hinv]
    · intro c hc
      rw [hdone] at hc
      simp only [finalizeAll, List.mem_map] at hc
      obtain ⟨p, hp, rfl⟩ := hc
      have hpm : p ∈ (claudeRunFrom ord {} body).final.content_blocks :=
        (hperm _).subset hp
      obtain ⟨i, b⟩ := p
      obtain ⟨cb, hcb, hk⟩ := hinv.2.2 i b hpm
      have hfinal : (claudeRunFrom ord {}
          (body ++ [AnthropicStreamEvent.MessageStop])).final =
          (claudeRunFrom ord {} body).final := by rw [hr]
      have hok : toolJsonOk b = true := htool (i, b) (by rw [hfinal]; exact hpm)
      refine ⟨i, cb, b, hcb, by rw [hfinal]; exact hpm, hk, by rw [hfinal], ?_⟩
      rw [← hk]
      exact finalizeBlock_kind b hok

/-- The C5 witness body: message-start, one text block, two text
deltas. -/
def c5Body : List AnthropicStreamEvent :=
  [.MessageStart, .ContentBlockStart 0 (.Text ""),
   .ContentBlockDelta 0 (.TextDelta "Hel"), .ContentBlockDelta 0 (.TextDelta "lo")]

/-- C5 witness: `c5_finalization_counts_and_kinds` at the concrete body
— one distinct index opened, one `Done` chunk finalized. -/
theorem c5_witness :
    (claudeRun id (c5Body ++ [.MessageStop])).panicked = none ∧
    (openedIndices c5Body).toFinset.card = 1 ∧
    (doneChunks (claudeRun id (c5Body ++ [.MessageStop])).chunks).length =
      (openedIndices c5Body).toFinset.card :=
  ⟨rfl, rfl,
    (c5_finalization_counts_and_kinds id (fun m => List.Perm.refl m) c5Body
      (by simp [c5Body]) rfl
      (by
        intro p hp
        rw [show (claudeRun id (c5Body ++ [.MessageStop])).final.content_blocks =
          [(0, .Text "Hello")] from rfl] at hp
        rw [List.mem_singleton.1 hp]
        rfl)).1⟩

end Aisdk
